import Mathlib

/-!
# Verification of the planilla-web submission ledger

Shallow embedding of the expense-claim ("planilla de movilidad") backend:
amount normalization, date normalization, voucher serie derivation,
per-worker sequence allocation, the daily-cap check and the submission
endpoints of the server variants found in the repository (`server.cjs` v7,
the v9/v8 variant, `server.js`, and the `planillas` router variants).

Currency amounts are modelled as exact rationals (`ℚ`); the JavaScript
idiom `Number(x.toFixed(2))` is modelled as rounding to two decimal places
with ties toward positive infinity, which is the ECMAScript `toFixed` tie
rule ("if there are two such n, pick the larger n") read over exact
decimal values.  SQL tables are lists of rows; a transaction is modelled
by performing all transactional writes on a copy of the state and
returning the original state on any failure (`ROLLBACK`), while writes
issued outside the transaction (plain pool queries) take effect
unconditionally.  Storage failures are injected through an explicit
`failAt` oracle naming the line-item insert that throws.
-/

namespace Planilla

/-! ## Money: exact-rational model of the JS amount arithmetic -/

/-- `Number(x.toFixed(2))`: round a rational to two decimal places, ties
toward positive infinity. -/
def round2 (q : ℚ) : ℚ :=
  ((q * 100 + 1 / 2).floor : ℚ) / 100

/-- A rational that is a whole number of cents (an exact 2-decimal value). -/
def isCents (q : ℚ) : Prop := ∃ n : ℤ, q = (n : ℚ) / 100

/-! ## Characters and strings -/

/-- Whitespace recognised by `String.prototype.trim` (ASCII subset that can
occur in the payloads): space, tab, newline, carriage return. -/
def isWsChar (c : Char) : Bool :=
  c.toNat == 32 || c.toNat == 9 || c.toNat == 10 || c.toNat == 13

/-- The regex class `\d` / `[0-9]`. -/
def jsIsDigit (c : Char) : Bool :=
  48 ≤ c.toNat && c.toNat ≤ 57

/-- JS `String.prototype.trim`. -/
def jsTrim (s : String) : String :=
  ⟨((s.data.dropWhile isWsChar).reverse.dropWhile isWsChar).reverse⟩

/-- JS `toLowerCase` on one character (ASCII). -/
def jsToLowerChar (c : Char) : Char :=
  if 65 ≤ c.toNat && c.toNat ≤ 90 then Char.ofNat (c.toNat + 32) else c

/-- JS `String.prototype.toLowerCase` (ASCII; emails in the data are ASCII). -/
def jsToLower (s : String) : String :=
  ⟨s.data.map jsToLowerChar⟩

/-- JS `toUpperCase` on one character: ASCII `a-z` and the Latin-1 letters
`à`–`þ` (except `÷`) map up by 32, `ÿ` maps to `Ÿ`; anything else is fixed. -/
def jsToUpperChar (c : Char) : Char :=
  if 97 ≤ c.toNat && c.toNat ≤ 122 then Char.ofNat (c.toNat - 32)
  else if 224 ≤ c.toNat && c.toNat ≤ 254 && c.toNat != 247 then Char.ofNat (c.toNat - 32)
  else if c.toNat == 255 then Char.ofNat 376
  else c

/-- JS `String.prototype.toUpperCase`. -/
def jsToUpper (s : String) : String :=
  ⟨s.data.map jsToUpperChar⟩

/-- One step of `String.prototype.normalize('NFD')`, restricted to the
Latin-1 letters that occur in Spanish names; other characters decompose to
themselves.  769 = U+0301 combining acute, 768 = U+0300 grave,
771 = U+0303 tilde, 776 = U+0308 diaeresis. -/
def nfdChar : Char → List Char
  | 'á' => ['a', Char.ofNat 769]
  | 'é' => ['e', Char.ofNat 769]
  | 'í' => ['i', Char.ofNat 769]
  | 'ó' => ['o', Char.ofNat 769]
  | 'ú' => ['u', Char.ofNat 769]
  | 'Á' => ['A', Char.ofNat 769]
  | 'É' => ['E', Char.ofNat 769]
  | 'Í' => ['I', Char.ofNat 769]
  | 'Ó' => ['O', Char.ofNat 769]
  | 'Ú' => ['U', Char.ofNat 769]
  | 'à' => ['a', Char.ofNat 768]
  | 'è' => ['e', Char.ofNat 768]
  | 'ì' => ['i', Char.ofNat 768]
  | 'ò' => ['o', Char.ofNat 768]
  | 'ù' => ['u', Char.ofNat 768]
  | 'ñ' => ['n', Char.ofNat 771]
  | 'Ñ' => ['N', Char.ofNat 771]
  | 'ü' => ['u', Char.ofNat 776]
  | 'Ü' => ['U', Char.ofNat 776]
  | c => [c]

/-- The combining-diacritics block `[̀-ͯ]` stripped by `norm`. -/
def isCombining (c : Char) : Bool :=
  768 ≤ c.toNat && c.toNat ≤ 879

/-- `norm` of server.cjs / the v9 variant:
`(s||'').normalize('NFD').replace(/[̀-ͯ]/g,'').toUpperCase()`. -/
def normName (s : String) : String :=
  ⟨((s.data.flatMap nfdChar).filter (fun c => !isCombining c)).map jsToUpperChar⟩

/-- `normalize` of `src/utils.js`: NFD + strip combining marks, but no
upper-casing. -/
def normalizeUtil (s : String) : String :=
  ⟨(s.data.flatMap nfdChar).filter (fun c => !isCombining c)⟩

/-- `serieFromName` of server.cjs (also `serieDesde` of the part_002 variant
and, composed with `normalize`, `serieFromName` of `src/utils.js`):
`norm(n).slice(0,2) + norm(a).slice(0,2) + '001'`. -/
def serieFromName (n a : String) : String :=
  (⟨(normName n).data.take 2⟩ : String) ++ (⟨(normName a).data.take 2⟩ : String) ++ "001"

/-- `serieFromName` of server.js:
`(n.slice(0,2) + (a||'').slice(0,2)).toUpperCase() + '001'` (no accent
stripping). -/
def serieFromNameJs (n a : String) : String :=
  jsToUpper (⟨n.data.take 2 ++ a.data.take 2⟩ : String) ++ "001"

/-- First whitespace-separated token of a name:
`(s||'').trim().split(/\s+/)[0] || ''`. -/
def firstToken (s : String) : String :=
  ⟨(jsTrim s).data.takeWhile (fun c => !isWsChar c)⟩

/-- `initialsSerie` of the part_003 variant: first character of the first
token of each name (`'X'` when missing), upper-cased at the end; note that
it performs no accent stripping. -/
def initialsSerie (n a : String) : String :=
  jsToUpper (⟨[((firstToken n).data.headD 'X'), ((firstToken a).data.headD 'X')]⟩ : String)

/-- Accent-strip one character: NFD-decompose and drop combining marks. -/
def stripAccentChar (c : Char) : Char :=
  ((nfdChar c).filter (fun x => !isCombining x)).headD c

/-- Modelled from the spec (§4.1 VoucherCodec wording): the first letter of
the first token of a name, upper-cased and accent-stripped, `'X'` when the
component is missing.  This follows the claim's words, for comparison with
the source functions. -/
def serieSpecInitial (s : String) : Char :=
  match (firstToken s).data with
  | [] => 'X'
  | c :: _ => jsToUpperChar (stripAccentChar c)

/-- Modelled from the spec: `serie(firstName, lastName)` as the claim states
it — the first letter of the first token of each name, upper-cased,
accent-stripped, `'X'` fallback. -/
def serieSpec (n a : String) : String :=
  ⟨[serieSpecInitial n, serieSpecInitial a]⟩

/-! ## Date normalization (server.cjs, v9/v8 variants) -/

/-- The test `/^\d{2}\/\d{2}\/\d{4}$/`. -/
def isDDMMYYYY (s : String) : Bool :=
  match s.data with
  | [d1, d2, s1, m1, m2, s2, y1, y2, y3, y4] =>
    jsIsDigit d1 && jsIsDigit d2 && s1 == '/' && jsIsDigit m1 && jsIsDigit m2 && s2 == '/' &&
    jsIsDigit y1 && jsIsDigit y2 && jsIsDigit y3 && jsIsDigit y4
  | _ => false

/-- The test `/^\d{4}-\d{2}-\d{2}$/`. -/
def isYYYYMMDD (s : String) : Bool :=
  match s.data with
  | [y1, y2, y3, y4, s1, m1, m2, s2, d1, d2] =>
    jsIsDigit y1 && jsIsDigit y2 && jsIsDigit y3 && jsIsDigit y4 && s1 == '-' &&
    jsIsDigit m1 && jsIsDigit m2 && s2 == '-' && jsIsDigit d1 && jsIsDigit d2
  | _ => false

/-- `const [dd,mm,yy] = s.split('/'); return yy-mm-dd` — only reached when
the `DD/MM/YYYY` test matched, which pins the 10-character shape. -/
def swapDDMM (s : String) : String :=
  match s.data with
  | [d1, d2, _, m1, m2, _, y1, y2, y3, y4] =>
    ⟨[y1, y2, y3, y4, '-', m1, m2, '-', d1, d2]⟩
  | _ => s

/-- `normalizeFecha` of server.cjs and the v9/v8 variants: trim, convert
`DD/MM/YYYY` to `YYYY-MM-DD`, keep `YYYY-MM-DD`, pass anything else
through.  `none` models a `null`/`undefined` input (`String(f||'')`). -/
def normalizeFecha (f : Option String) : String :=
  let s := jsTrim (f.getD "")
  if isDDMMYYYY s then swapDDMM s
  else if isYYYYMMDD s then s
  else s

/-! ## Amount cleaning: `toMoney` of the v9 variant -/

/-- Decimal digits to their value. -/
def digitsVal (ds : List Char) : ℕ :=
  ds.foldl (fun a c => a * 10 + (c.toNat - 48)) 0

/-- Split the cleaned character list into (sign, integer digits, fraction
digits), the shape recognised by `parseFloat` on the post-cleanup alphabet
`[0-9.-]` (letters were removed, so no exponents can occur); `none` when no
digit is found (`parseFloat` returns `NaN`). -/
def parseParts (cs : List Char) : Option (Bool × List Char × List Char) :=
  let neg := match cs with
    | '-' :: _ => true
    | _ => false
  let cs1 := match cs with
    | '-' :: rest => rest
    | _ => cs
  let intd := cs1.takeWhile jsIsDigit
  let rest1 := cs1.dropWhile jsIsDigit
  let fracd := match rest1 with
    | '.' :: r => r.takeWhile jsIsDigit
    | _ => []
  if intd.isEmpty && fracd.isEmpty then none
  else some (neg, intd, fracd)

/-- Value of a parsed (sign, integer digits, fraction digits) triple. -/
def partsVal (p : Bool × List Char × List Char) : ℚ :=
  let mag : ℚ := (digitsVal p.2.1 : ℚ) + (digitsVal p.2.2 : ℚ) / ((10 : ℚ) ^ p.2.2.length)
  if p.1 then -mag else mag

/-- JS `parseFloat`, restricted to the character set surviving `toMoney`'s
cleanup: the longest valid numeric prefix, `none` for `NaN`. -/
def parseFloatQ (cs : List Char) : Option ℚ :=
  (parseParts cs).map partsVal

/-- `s.replace(/,/g,'.').replace(/[^0-9.\-]/g,'')`. -/
def cleanMoney (s : String) : List Char :=
  (s.data.map (fun c => if c == ',' then '.' else c)).filter
    (fun c => jsIsDigit c || c == '.' || c == '-')

/-- `s.split('.')`. -/
def splitOnDot : List Char → List (List Char)
  | [] => [[]]
  | '.' :: rest => [] :: splitOnDot rest
  | c :: rest =>
    match splitOnDot rest with
    | g :: gs => (c :: g) :: gs
    | [] => [[c]]

/-- "Si hay más de un punto, conserva el último": when the cleaned string
has more than one dot, join every part but the last and re-append the last
behind a single dot. -/
def keepLastDot (cs : List Char) : List Char :=
  let parts := splitOnDot cs
  if 2 < parts.length then
    match parts.getLast? with
    | some last => parts.dropLast.flatMap id ++ '.' :: last
    | none => cs
  else cs

/-- `toMoney` of the v9 variant: clean inputs like `"S/ 45,00"`, `"45.0"`,
`""`, `null` to a 2-decimal number; unparseable input gives 0, never NaN
(`Number.isFinite` guard). -/
def toMoney (v : Option String) : ℚ :=
  match v with
  | none => 0
  | some str =>
    match parseFloatQ (keepLastDot (cleanMoney (jsTrim str))) with
    | none => 0
    | some n => round2 n

/-! ## Data model

`historial` rows keep the columns the ledger logic reads
(`dni, email, fecha, serie, num, monto, total`); the presentation-only
text columns (`trabajador, proyecto, destino, motivo, pc, empresaid`) are
omitted.  `num` is stored zero-padded (`pad(n,5)`), and `String(n)` is
injective, so grouping by the padded text is grouping by the integer; the
model keeps the integer. -/

structure User where
  email : String
  dni : String
  nombres : String
  apellidos : String
  activo : Bool
deriving DecidableEq, Repr

structure Row where
  dni : String
  email : String
  fecha : String
  serie : String
  num : ℕ
  monto : ℚ
  total : ℚ
deriving DecidableEq, Repr

/-- State shared by the `historial`-schema variants (server.cjs v7, v9/v8,
server.js): the users table, the per-worker `counters` table and the
`historial` table. -/
structure ServerState where
  usuarios : List User
  counters : List (String × ℕ)
  historial : List Row
deriving DecidableEq, Repr

/-- Outcome of one submission call. -/
inductive Result where
  | ok (serie : String) (num : ℕ) (total : ℚ)
  | badPayload
  | noUser
  | inactive
  | emptyItems
  | capExceeded
  | dbError
deriving DecidableEq, Repr

/-- `SELECT n FROM counters WHERE dni=$1`. -/
def getCounter : List (String × ℕ) → String → Option ℕ
  | [], _ => none
  | (k, v) :: rest, dni => if k = dni then some v else getCounter rest dni

/-- Write the counter row for `dni` (insert-or-update on the primary key). -/
def putCounter : List (String × ℕ) → String → ℕ → List (String × ℕ)
  | [], dni, n => [(dni, n)]
  | (k, v) :: rest, dni, n =>
    if k = dni then (k, n) :: rest else (k, v) :: putCounter rest dni n

/-- `SELECT * FROM v_usuarios_login WHERE email ILIKE $1 LIMIT 1` on the
already-lowercased input. -/
def findUser (us : List User) (email : String) : Option User :=
  us.find? (fun u => decide (jsToLower u.email = jsToLower email))

/-- `SELECT * FROM usuarios WHERE dni=$1` (server.js). -/
def findUserByDni (us : List User) (dni : String) : Option User :=
  us.find? (fun u => decide (u.dni = dni))

/-- `WHERE dni=$1 AND fecha=$2`. -/
def rowMatches (dni fecha : String) (r : Row) : Bool :=
  decide (r.dni = dni ∧ r.fecha = fecha)

/-- `SELECT COALESCE(SUM(total),0) FROM historial WHERE dni=$1 AND fecha=$2`
(server.cjs v7 and the v9/v8 variants). -/
def daySum (h : List Row) (dni fecha : String) : ℚ :=
  ((h.filter (rowMatches dni fecha)).map Row.total).sum

/-- server.js / part_002 `/api/acumulado`-style aggregate:
`SELECT COALESCE(SUM(t.total),0) FROM (SELECT num, MAX(total) total FROM
historial WHERE dni=$1 AND fecha=$2 GROUP BY num) t`. -/
def acumJs (h : List Row) (dni fecha : String) : ℚ :=
  let ms := h.filter (rowMatches dni fecha)
  (((ms.map Row.num).dedup).map
    (fun n => ((ms.filter (fun r => decide (r.num = n))).map Row.total).foldr max 0)).sum

/-- part_002 accumulator: `SELECT COALESCE(SUM(DISTINCT total),0) FROM
historial WHERE dni=$1 AND fecha=$2`. -/
def sumDistinctTotals (h : List Row) (dni fecha : String) : ℚ :=
  (((h.filter (rowMatches dni fecha)).map Row.total).dedup).sum

/-- Sum of per-submission totals: one `total` per distinct voucher `num`
(every row of a submission carries the submission's `num`). -/
def headerTotalsSum (h : List Row) (dni fecha : String) : ℚ :=
  ((((h.filter (rowMatches dni fecha)).map (fun r => (r.num, r.total))).dedup).map
    Prod.snd).sum

/-! ## Sequence allocation -/

/-- server.cjs allocation, a single atomic read-modify-write statement:
`INSERT INTO counters (dni,n) VALUES ($1,1) ON CONFLICT (dni) DO UPDATE SET
n=counters.n+1 RETURNING n`. -/
def allocNextCjs (cs : List (String × ℕ)) (dni : String) : ℕ × List (String × ℕ) :=
  match getCounter cs dni with
  | none => (1, putCounter cs dni 1)
  | some n => (n + 1, putCounter cs dni (n + 1))

/-- First SQL statement of server.js's allocation:
`SELECT n FROM counters WHERE dni=$1`, with `rows[0]?.n || 0`. -/
def readCounterJs (cs : List (String × ℕ)) (dni : String) : ℕ :=
  (getCounter cs dni).getD 0

/-- Second SQL statement of server.js's allocation: `INSERT INTO
counters(dni,n) VALUES($1,$2) ON CONFLICT(dni) DO UPDATE SET n=EXCLUDED.n`
with the client-computed value. -/
def writeCounterJs (cs : List (String × ℕ)) (dni : String) (n : ℕ) : List (String × ℕ) :=
  putCounter cs dni n

/-- Interleaving of two concurrent server.js allocations for the same
worker in which both `SELECT`s execute before either upsert; each SQL
statement is one atomic step. -/
def jsAllocInterleaved (cs : List (String × ℕ)) (dni : String) :
    ℕ × ℕ × List (String × ℕ) :=
  let n1 := readCounterJs cs dni + 1
  let n2 := readCounterJs cs dni + 1
  let cs1 := writeCounterJs cs dni n1
  let cs2 := writeCounterJs cs1 dni n2
  (n1, n2, cs2)

/-! ## Submission endpoints -/

/-- `POST /api/planillas` of server.cjs (v7).  One transaction covers the
user lookup, the cap check, the counter upsert and the item inserts; item
amounts arrive as `Number(it.monto||0)` (the `items : List ℚ`), each row
stores `monto = total = Number(monto.toFixed(2))`, and the candidate total
is `Number(sum.toFixed(2))`.  `failAt = some i` with `i < items.length`
makes the insert of item `i` throw, after which the source's `ROLLBACK`
discards every transactional write.  The role-authorization gate of the
route is outside the ledger and not modelled. -/
def submitCjs (tope : ℚ) (st : ServerState) (dni email fecha : String)
    (items : List ℚ) (failAt : Option ℕ) : Result × ServerState :=
  if dni = "" ∨ email = "" ∨ fecha = "" ∨ items = [] then (.badPayload, st)
  else
    let fechaISO := normalizeFecha (some fecha)
    match findUser st.usuarios email with
    | none => (.noUser, st)
    | some u =>
      let acc := daySum st.historial dni fechaISO
      let totalItems := round2 items.sum
      if tope < acc + totalItems then (.capExceeded, st)
      else
        let bumped := (allocNextCjs st.counters dni).1
        let counters1 := (allocNextCjs st.counters dni).2
        let serie := serieFromName u.nombres u.apellidos
        let rows := items.map (fun m =>
          { dni := dni, email := jsToLower email, fecha := fechaISO, serie := serie,
            num := bumped, monto := round2 m, total := round2 m : Row })
        match failAt with
        | some i =>
          if i < items.length then (.dbError, st)
          else (.ok serie bumped totalItems,
            { st with counters := counters1, historial := st.historial ++ rows })
        | none => (.ok serie bumped totalItems,
            { st with counters := counters1, historial := st.historial ++ rows })

/-- `POST /api/planillas` of the v9 variant: like v7 but the raw item
amounts are first cleaned with `toMoney` and rows with `monto ≤ 0` are
dropped; a submission in which nothing survives is rejected before the
transaction starts.  Stored `monto = total =` the cleaned amount. -/
def submitV9 (tope : ℚ) (st : ServerState) (dni email fecha : String)
    (rawItems : List (Option String)) (failAt : Option ℕ) : Result × ServerState :=
  if dni = "" ∨ email = "" ∨ fecha = "" then (.badPayload, st)
  else
    let normalized := (rawItems.map toMoney).filter (fun m => decide (0 < m))
    if normalized = [] then (.emptyItems, st)
    else
      let fechaISO := normalizeFecha (some fecha)
      match findUser st.usuarios email with
      | none => (.noUser, st)
      | some u =>
        let acc := daySum st.historial dni fechaISO
        let totalItems := round2 normalized.sum
        if tope < acc + totalItems then (.capExceeded, st)
        else
          let bumped := (allocNextCjs st.counters dni).1
          let counters1 := (allocNextCjs st.counters dni).2
          let serie := serieFromName u.nombres u.apellidos
          let rows := normalized.map (fun m =>
            { dni := dni, email := jsToLower email, fecha := fechaISO, serie := serie,
              num := bumped, monto := m, total := m : Row })
          match failAt with
          | some i =>
            if i < normalized.length then (.dbError, st)
            else (.ok serie bumped totalItems,
              { st with counters := counters1, historial := st.historial ++ rows })
          | none => (.ok serie bumped totalItems,
              { st with counters := counters1, historial := st.historial ++ rows })

/-- `POST /api/planillas` of server.js.  `TOPE` is the literal `45.0`
inside the handler; the date is not normalized; items are neither filtered
nor rounded; every row stores `total = totalPlanilla` (the whole
submission's total) next to its own `monto`; the accumulator groups rows
by `num` and sums `MAX(total)` per group.  The counter is read and
upserted through the pool BEFORE the insert transaction, so a failing item
insert (`failAt`) rolls back the rows but leaves the counter bumped. -/
def submitJs (st : ServerState) (dni fecha : String) (detalles : List ℚ)
    (failAt : Option ℕ) : Result × ServerState :=
  if dni = "" ∨ fecha = "" ∨ detalles = [] then (.badPayload, st)
  else
    match findUserByDni st.usuarios dni with
    | none => (.noUser, st)
    | some user =>
      let acumulado := acumJs st.historial dni fecha
      let totalPlanilla := detalles.sum
      if (45 : ℚ) < acumulado + totalPlanilla then (.capExceeded, st)
      else
        let next := (getCounter st.counters dni).getD 0 + 1
        let counters1 := putCounter st.counters dni next
        let serie := serieFromNameJs user.nombres user.apellidos
        let rows := detalles.map (fun m =>
          { dni := dni, email := user.email, fecha := fecha, serie := serie,
            num := next, monto := m, total := totalPlanilla : Row })
        match failAt with
        | some i =>
          if i < detalles.length then (.dbError, { st with counters := counters1 })
          else (.ok serie next totalPlanilla,
            { st with counters := counters1, historial := st.historial ++ rows })
        | none => (.ok serie next totalPlanilla,
            { st with counters := counters1, historial := st.historial ++ rows })

/-! ## The part_001 variant (header/items schema, epsilon cap check) -/

/-- `initials` of the part_001 variant:
`(nombres||'').trim().toUpperCase()` then `(n[0]||'X') + (a[0]||'X')`. -/
def initialsP1 (n a : String) : String :=
  ⟨[(jsToUpper (jsTrim n)).data.headD 'X', (jsToUpper (jsTrim a)).data.headD 'X']⟩

/-- A `planillas` header row of the part_001 schema (`id BIGSERIAL`,
modelled as the insertion index). -/
structure P1Header where
  id : ℕ
  serie : String
  num : ℕ
  dni : String
  email : String
  fecha : String
  total : ℚ
deriving DecidableEq, Repr

/-- State of the part_001 variant: users, `counters(dni,last_num)`,
`planillas` headers and `planillas_items(planilla_id, monto)` (the
presentation-only item columns are omitted). -/
structure P1State where
  usuarios : List User
  counters : List (String × ℕ)
  planillas : List P1Header
  items : List (ℕ × ℚ)
deriving DecidableEq, Repr

/-- The join filter of part_001's accumulator: the item belongs to a
header with this `dni` and `fecha`. -/
def p1ItemMatches (ps : List P1Header) (dni fecha : String) (it : ℕ × ℚ) : Bool :=
  ps.any (fun h => decide (h.id = it.1 ∧ h.dni = dni ∧ h.fecha = fecha))

/-- part_001 accumulator: `SELECT COALESCE(SUM(pi.monto),0) FROM planillas p
JOIN planillas_items pi ON pi.planilla_id=p.id WHERE p.dni=$1 AND
p.fecha=$2`. -/
def sumItemsJoinP1 (st : P1State) (dni fecha : String) : ℚ :=
  ((st.items.filter (p1ItemMatches st.planillas dni fecha)).map Prod.snd).sum

/-- `POST /api/planillas` of the part_001 variant.  The cap check uses the
configured `TOPE` (env) and an explicit `1e-6` epsilon:
`acum + total > topeNum + 1e-6`.  The counter is ensured
(`INSERT … DO NOTHING`) and then atomically bumped
(`UPDATE counters SET last_num=last_num+1 … RETURNING`).  The route runs
no transaction; the model is its sequential effect. -/
def submitP1 (tope : ℚ) (st : P1State) (dni email fecha : String)
    (montos : List ℚ) : Result × P1State :=
  if dni = "" ∨ email = "" ∨ fecha = "" then (.badPayload, st)
  else if montos = [] then (.emptyItems, st)
  else
    match findUser st.usuarios email with
    | none => (.noUser, st)
    | some u =>
      if u.activo = false then (.inactive, st)
      else
        let acum := sumItemsJoinP1 st dni fecha
        let total := round2 montos.sum
        if tope + 1 / 1000000 < acum + total then (.capExceeded, st)
        else
          let cs0 := match getCounter st.counters dni with
            | none => putCounter st.counters dni 0
            | some _ => st.counters
          let num := (getCounter cs0 dni).getD 0 + 1
          let cs1 := putCounter cs0 dni num
          let serie := initialsP1 u.nombres u.apellidos
          let pid := st.planillas.length
          let header : P1Header :=
            { id := pid, serie := serie, num := num, dni := dni, email := email,
              fecha := fecha, total := total }
          (.ok serie num total,
            { st with
              counters := cs1,
              planillas := st.planillas ++ [header],
              items := st.items ++ montos.map (fun m => (pid, m)) })

/-! ## The part_012 variant (`planilla` header + `planilla_detalle`,
`MAX(num)+1` correlativo) -/

/-- A `planilla` header row of the part_012 schema (presentation columns
`trabajador`, `usuario_id` omitted; `serie` kept for the
`UNIQUE (serie,num)` constraint context). -/
structure P12Header where
  serie : String
  num : ℕ
  fecha : String
  dni : String
  email : String
  total : ℚ
deriving DecidableEq, Repr

/-- State of the part_012 variant: `planilla` headers and
`planilla_detalle(planilla_index, monto)`. -/
structure P12State where
  planilla : List P12Header
  detalle : List (ℕ × ℚ)
deriving DecidableEq, Repr

/-- The voucher numbers of one worker's committed submissions, in commit
order. -/
def numsFor (ps : List P12Header) (dni : String) : List ℕ :=
  (ps.filter (fun h => decide (h.dni = dni))).map P12Header.num

/-- part_012 correlativo source:
`SELECT COALESCE(MAX(num),0) FROM planilla WHERE dni=$1`. -/
def maxNumP12 (ps : List P12Header) (dni : String) : ℕ :=
  (numsFor ps dni).foldr max 0

/-- part_012 accumulator: `SELECT COALESCE(SUM(total),0) FROM planilla
WHERE dni=$1 AND fecha=$2` (headers only). -/
def sumHeadersP12 (ps : List P12Header) (dni fecha : String) : ℚ :=
  ((ps.filter (fun h => decide (h.dni = dni ∧ h.fecha = fecha))).map P12Header.total).sum

/-- `POST /planillas` of the part_012 variant.  The authenticated user is
the token payload `u`; `num = MAX(num)+1` over the worker's headers; the
cap check has no epsilon; header and detail rows are inserted inside one
transaction, so a failing detail insert (`fail = true`) leaves nothing
behind. -/
def submitP12 (tope : ℚ) (st : P12State) (u : User) (fecha : String)
    (montos : List ℚ) (fail : Bool) : Result × P12State :=
  if fecha = "" ∨ montos = [] then (.badPayload, st)
  else
    let serie := serieFromName (normalizeUtil u.nombres) (normalizeUtil u.apellidos)
    let num := maxNumP12 st.planilla u.dni + 1
    let total := montos.sum
    let acumuladoHoy := sumHeadersP12 st.planilla u.dni fecha
    if tope < acumuladoHoy + total then (.capExceeded, st)
    else if fail then (.dbError, st)
    else
      let header : P12Header :=
        { serie := serie, num := num, fecha := fecha, dni := u.dni,
          email := jsToLower u.email, total := total }
      (.ok serie num total,
        { planilla := st.planilla ++ [header],
          detalle := st.detalle ++ montos.map (fun m => (st.planilla.length, m)) })

/-- One request against the part_012 endpoint. -/
structure P12Op where
  user : User
  fecha : String
  montos : List ℚ
  fail : Bool

/-- Run a sequence of part_012 submissions (arbitrary interleaving of
workers). -/
def runP12 (tope : ℚ) (st : P12State) : List P12Op → P12State
  | [] => st
  | o :: rest => runP12 tope (submitP12 tope st o.user o.fecha o.montos o.fail).2 rest

/-- Number of requests of a given worker that the endpoint accepted along
the trace. -/
def okCountP12 (tope : ℚ) (st : P12State) : List P12Op → String → ℕ
  | [], _ => 0
  | o :: rest, dni =>
    (match (submitP12 tope st o.user o.fecha o.montos o.fail).1 with
      | .ok _ _ _ => if o.user.dni = dni then 1 else 0
      | _ => 0) +
    okCountP12 tope (submitP12 tope st o.user o.fecha o.montos o.fail).2 rest dni

/-- One request against the v9 endpoint. -/
structure V9Op where
  dni : String
  email : String
  fecha : String
  rawItems : List (Option String)
  failAt : Option ℕ

/-- Run a sequence of v9 submissions. -/
def runV9 (tope : ℚ) (st : ServerState) : List V9Op → ServerState
  | [] => st
  | o :: rest => runV9 tope (submitV9 tope st o.dni o.email o.fecha o.rawItems o.failAt).2 rest

/-- Rows that server.js persists for a batch of submissions of one worker
and date: submission `s = (num, total, k)` contributes `k` line-item rows,
each carrying the submission's `num` and whole-submission `total` (the
`monto` column is irrelevant to the accumulator and set to `total`). -/
def rowsOfSubs (dni fecha : String) (subs : List (ℕ × ℚ × ℕ)) : List Row :=
  subs.flatMap (fun s =>
    List.replicate s.2.2
      { dni := dni, email := "", fecha := fecha, serie := "", num := s.1,
        monto := s.2.1, total := s.2.1 : Row })

/-- `POST /api/planillas` of the part_002 variant.  `TOPE_DIA` is the
literal `45.0`; every row stores the whole submission's total
(`totalPlanilla`) next to its own `monto`; the accumulator sums
`DISTINCT total`; rows with non-positive `monto` are skipped at insert
time but still counted into `totalPlanilla`; the `seq` counter is read
and written back inside the transaction.  No user lookup is performed
(`nombres`/`apellidos` come from the request body). -/
def submitP02 (st : ServerState) (dni email nombres apellidos fecha : String)
    (detalles : List ℚ) : Result × ServerState :=
  if dni = "" ∨ fecha = "" ∨ detalles = [] then (.badPayload, st)
  else
    let totalPlanilla := detalles.sum
    let acumulado := sumDistinctTotals st.historial dni fecha
    if (45 : ℚ) < acumulado + totalPlanilla then (.capExceeded, st)
    else
      let cs0 := match getCounter st.counters dni with
        | none => putCounter st.counters dni 0
        | some _ => st.counters
      let next := (getCounter cs0 dni).getD 0 + 1
      let cs1 := putCounter cs0 dni next
      let serie := serieFromName nombres apellidos
      let rows := (detalles.filter (fun m => decide (0 < m))).map (fun m =>
        { dni := dni, email := jsToLower email, fecha := fecha, serie := serie,
          num := next, monto := m, total := totalPlanilla : Row })
      (.ok serie next totalPlanilla,
        { st with counters := cs1, historial := st.historial ++ rows })

/-! ## Helper lemmas -/

theorem ratFloor_eq_intFloor (q : ℚ) : q.floor = ⌊q⌋ := by
  rw [Rat.floor_def' q, Rat.floor_def]

theorem round2_isCents (q : ℚ) : isCents (round2 q) :=
  ⟨(q * 100 + 1 / 2).floor, rfl⟩

theorem round2_of_cents (n : ℤ) : round2 ((n : ℚ) / 100) = (n : ℚ) / 100 := by
  unfold round2
  rw [ratFloor_eq_intFloor]
  have h : (n : ℚ) / 100 * 100 + 1 / 2 = (n : ℚ) + 1 / 2 := by ring
  rw [h]
  have h2 : ⌊(n : ℚ) + 1 / 2⌋ = n := by
    rw [Int.floor_eq_iff]
    constructor
    · linarith
    · norm_num
  rw [h2]

theorem isCents_add {a b : ℚ} (ha : isCents a) (hb : isCents b) :
    isCents (a + b) := by
  obtain ⟨m, hm⟩ := ha
  obtain ⟨n, hn⟩ := hb
  exact ⟨m + n, by rw [hm, hn]; push_cast; ring⟩

theorem isCents_zero : isCents 0 := ⟨0, by norm_num⟩

theorem round2_cents_fixed {q : ℚ} (h : isCents q) : round2 q = q := by
  obtain ⟨n, hn⟩ := h
  rw [hn, round2_of_cents]

theorem isCents_sum {l : List ℚ} (h : ∀ q ∈ l, isCents q) : isCents l.sum := by
  induction l with
  | nil => simpa using isCents_zero
  | cons a t ih =>
    rw [List.sum_cons]
    exact isCents_add (h a (List.mem_cons_self a t))
      (ih fun q hq => h q (List.mem_cons_of_mem a hq))

theorem toMoney_isCents (v : Option String) : isCents (toMoney v) := by
  unfold toMoney
  cases v with
  | none => exact isCents_zero
  | some str =>
    cases h : parseFloatQ (keepLastDot (cleanMoney (jsTrim str))) with
    | none => simp only [h]; exact isCents_zero
    | some n => simp only [h]; exact round2_isCents n

theorem daySum_append (h1 h2 : List Row) (dni fecha : String) :
    daySum (h1 ++ h2) dni fecha = daySum h1 dni fecha + daySum h2 dni fecha := by
  unfold daySum
  rw [List.filter_append, List.map_append, List.sum_append]

theorem getCounter_putCounter_same (cs : List (String × ℕ)) (dni : String) (n : ℕ) :
    getCounter (putCounter cs dni n) dni = some n := by
  induction cs with
  | nil => simp [putCounter, getCounter]
  | cons p rest ih =>
    by_cases h : p.1 = dni
    · simp [putCounter, getCounter, h]
    · simp [putCounter, getCounter, h, ih]

theorem getCounter_putCounter_other (cs : List (String × ℕ)) (dni d : String)
    (n : ℕ) (hd : d ≠ dni) :
    getCounter (putCounter cs dni n) d = getCounter cs d := by
  have hdd : ¬ dni = d := fun hh => hd hh.symm
  induction cs with
  | nil => simp [putCounter, getCounter, hdd]
  | cons p rest ih =>
    by_cases h : p.1 = dni
    · simp [putCounter, getCounter, h, hdd]
    · by_cases h2 : p.1 = d
      · simp [putCounter, getCounter, h, h2, hd]
      · simp [putCounter, getCounter, h, h2, ih]

/-! ## C6 — sequence allocation -/

/-- C6 counterexample: the claim says the allocator uses a single atomic
read-modify-write so that two concurrent allocations for the same worker
cannot return the same number.  server.js allocates with a separate
`SELECT n` followed by an upsert of the client-computed value; in the
interleaving where both `SELECT`s run before either upsert, both
allocations return voucher number 1 for the same worker. -/
theorem C6_counterexample :
    (jsAllocInterleaved [] "44081950").1 = 1 ∧
    (jsAllocInterleaved [] "44081950").2.1 = 1 ∧
    (jsAllocInterleaved [] "44081950").1 = (jsAllocInterleaved [] "44081950").2.1 := by
  refine ⟨rfl, rfl, rfl⟩

/-- C6 amended: the server.cjs allocator (`INSERT … ON CONFLICT (dni) DO
UPDATE SET n=counters.n+1 RETURNING n`) is one atomic statement; it creates
the counter with value 1 and returns 1 when no row exists, otherwise
increments and returns the new value; because each allocation is a single
atomic step, a second allocation for the same worker always returns the
successor (never a duplicate), and other workers' counters are untouched.
The server.js variant allocates in two non-atomic steps and can duplicate
(see the counterexample). -/
theorem C6_allocNextCjs (cs : List (String × ℕ)) (dni : String) :
    (getCounter cs dni = none →
      (allocNextCjs cs dni).1 = 1 ∧
      getCounter (allocNextCjs cs dni).2 dni = some 1) ∧
    (∀ n, getCounter cs dni = some n →
      (allocNextCjs cs dni).1 = n + 1 ∧
      getCounter (allocNextCjs cs dni).2 dni = some (n + 1)) ∧
    (allocNextCjs (allocNextCjs cs dni).2 dni).1 = (allocNextCjs cs dni).1 + 1 ∧
    (∀ d, d ≠ dni → getCounter (allocNextCjs cs dni).2 d = getCounter cs d) := by
  refine ⟨?_, ?_, ?_, ?_⟩
  · intro h
    simp [allocNextCjs, h, getCounter_putCounter_same]
  · intro n h
    simp [allocNextCjs, h, getCounter_putCounter_same]
  · cases h : getCounter cs dni with
    | none =>
      simp [allocNextCjs, h, getCounter_putCounter_same]
    | some n =>
      simp [allocNextCjs, h, getCounter_putCounter_same]
  · intro d hd
    cases h : getCounter cs dni with
    | none => simp [allocNextCjs, h, getCounter_putCounter_other cs dni d _ hd]
    | some n => simp [allocNextCjs, h, getCounter_putCounter_other cs dni d _ hd]

/-- Witness for C6: on an empty counters table the allocator creates the
row with 1 and returns 1. -/
theorem C6_witness :
    (allocNextCjs [] "44081950").1 = 1 ∧
    getCounter (allocNextCjs [] "44081950").2 "44081950" = some 1 :=
  (C6_allocNextCjs [] "44081950").1 rfl

/-! ## C3 — per-worker voucher numbers are `{1..k}` in commit order -/

theorem foldr_max_eq (l : List ℕ) (b : ℕ) : l.foldr max b = max b (l.foldr max 0) := by
  induction l with
  | nil => simp
  | cons a t ih =>
    simp only [List.foldr_cons, ih]
    omega

theorem foldr_max_range' (k : ℕ) : (List.range' 1 k).foldr max 0 = k := by
  induction k with
  | zero => simp
  | succ n ih =>
    rw [List.range'_concat, List.foldr_append]
    simp only [List.foldr_cons, List.foldr_nil]
    rw [foldr_max_eq, ih]
    omega

theorem numsFor_append_single (ps : List P12Header) (h : P12Header) (d : String) :
    numsFor (ps ++ [h]) d =
      numsFor ps d ++ (if h.dni = d then [h.num] else []) := by
  unfold numsFor
  rw [List.filter_append, List.map_append]
  by_cases hd : h.dni = d
  · simp [List.filter, hd]
  · simp [List.filter, hd]

theorem submitP12_step (tope : ℚ) (st : P12State) (u : User) (fecha : String)
    (montos : List ℚ) (fail : Bool)
    (hInv : ∀ d, numsFor st.planilla d =
      List.range' 1 (numsFor st.planilla d).length) :
    ∀ d, numsFor (submitP12 tope st u fecha montos fail).2.planilla d =
      List.range' 1 ((numsFor st.planilla d).length +
        okCountP12 tope st [⟨u, fecha, montos, fail⟩] d) := by
  intro d
  simp only [okCountP12]
  by_cases h1 : fecha = "" ∨ montos = []
  · have he : submitP12 tope st u fecha montos fail = (.badPayload, st) := by
      simp [submitP12, h1]
    rw [he]
    simpa using hInv d
  · by_cases h2 : tope < sumHeadersP12 st.planilla u.dni fecha + montos.sum
    · have he : submitP12 tope st u fecha montos fail = (.capExceeded, st) := by
        simp [submitP12, h1, h2]
      rw [he]
      simpa using hInv d
    · cases hf : fail with
      | true =>
        have he : submitP12 tope st u fecha montos true = (.dbError, st) := by
          simp [submitP12, h1, h2]
        rw [he]
        simpa using hInv d
      | false =>
        have he : submitP12 tope st u fecha montos false =
            (.ok (serieFromName (normalizeUtil u.nombres) (normalizeUtil u.apellidos))
                (maxNumP12 st.planilla u.dni + 1) montos.sum,
             { planilla := st.planilla ++
                 [⟨serieFromName (normalizeUtil u.nombres) (normalizeUtil u.apellidos),
                   maxNumP12 st.planilla u.dni + 1, fecha, u.dni, jsToLower u.email,
                   montos.sum⟩],
               detalle := st.detalle ++ montos.map (fun m => (st.planilla.length, m)) }) := by
          simp [submitP12, h1, h2]
        rw [he]
        simp only
        rw [numsFor_append_single]
        by_cases hd : u.dni = d
        · subst hd
          obtain ⟨k, hk⟩ : ∃ k, numsFor st.planilla u.dni = List.range' 1 k :=
            ⟨(numsFor st.planilla u.dni).length, hInv u.dni⟩
          have hmax : maxNumP12 st.planilla u.dni = k := by
            unfold maxNumP12
            rw [hk, foldr_max_range']
          rw [if_pos rfl, hk, hmax, List.length_range']
          simp only [eq_self_iff_true, if_true]
          rw [show k + (1 + 0) = k + 1 by omega, List.range'_concat]
          congr 1
          dsimp only
          simp only [List.cons.injEq, and_true]
          omega
        · rw [if_neg hd]
          simpa [hd] using hInv d

theorem runP12_nums (tope : ℚ) (ops : List P12Op) : ∀ (st : P12State),
    (∀ d, numsFor st.planilla d =
      List.range' 1 (numsFor st.planilla d).length) →
    ∀ d, numsFor (runP12 tope st ops).planilla d =
      List.range' 1 ((numsFor st.planilla d).length + okCountP12 tope st ops d) := by
  induction ops with
  | nil =>
    intro st hInv d
    simpa [runP12, okCountP12] using hInv d
  | cons o rest ih =>
    intro st hInv d
    have hstep := submitP12_step tope st o.user o.fecha o.montos o.fail hInv
    have hInv2 : ∀ d, numsFor (submitP12 tope st o.user o.fecha o.montos o.fail).2.planilla d =
        List.range' 1 (numsFor (submitP12 tope st o.user o.fecha o.montos o.fail).2.planilla d).length := by
      intro d2
      rw [hstep d2]
      simp [List.length_range']
    have hrest := ih (submitP12 tope st o.user o.fecha o.montos o.fail).2 hInv2 d
    show numsFor (runP12 tope (submitP12 tope st o.user o.fecha o.montos o.fail).2 rest).planilla d = _
    rw [hrest]
    congr 1
    have hlen : (numsFor (submitP12 tope st o.user o.fecha o.montos o.fail).2.planilla d).length =
        (numsFor st.planilla d).length +
          okCountP12 tope st [⟨o.user, o.fecha, o.montos, o.fail⟩] d := by
      rw [hstep d]
      simp [List.length_range']
    rw [hlen]
    show _ = (numsFor st.planilla d).length + okCountP12 tope st (o :: rest) d
    simp only [okCountP12]
    omega

/-- C3: in the part_012 variant (`num = MAX(num)+1` per worker, all writes
in one transaction), after any sequence of submissions — arbitrary workers
interleaved, with cap rejections and injected storage failures — the
voucher numbers of each worker's committed submissions, read in commit
order, are exactly `[1, 2, …, k]` where `k` is the number of that worker's
accepted submissions: a contiguous, duplicate-free range assigned in
commit order. -/
theorem C3_sequence_invariant (tope : ℚ) (ops : List P12Op) (dni : String) :
    numsFor (runP12 tope ⟨[], []⟩ ops).planilla dni =
      List.range' 1 (okCountP12 tope ⟨[], []⟩ ops dni) := by
  have h := runP12_nums tope ops ⟨[], []⟩ (fun d => by simp [numsFor]) dni
  simpa [numsFor] using h

/-! ## C9 — amount normalization -/

/-- C9: `toMoney` maps `"S/ 45,00"` to `45.00`, `"45.005"` to `45.01`
(exact-decimal reading of the documented rule `Number(parseFloat(s).toFixed(2))`),
and the empty string and `null` to `0` (so such items are dropped by the
`monto > 0` filter); and for every input it returns a plain 2-decimal
number — never NaN (`Number.isFinite` guard). -/
theorem C9_toMoney_normalization :
    toMoney (some "S/ 45,00") = 45 ∧
    toMoney (some "45.005") = 4501 / 100 ∧
    toMoney (some "") = 0 ∧
    toMoney none = 0 ∧
    ∀ v : Option String, isCents (toMoney v) := by
  refine ⟨?_, ?_, ?_, rfl, toMoney_isCents⟩
  · have hp : parseParts (keepLastDot (cleanMoney (jsTrim "S/ 45,00"))) =
        some (false, ['4', '5'], ['0', '0']) := by decide
    have hd1 : digitsVal ['4', '5'] = 45 := by decide
    have hd2 : digitsVal ['0', '0'] = 0 := by decide
    simp only [toMoney, parseFloatQ, hp, Option.map_some']
    rw [show partsVal (false, ['4', '5'], ['0', '0']) = 45 by
      simp only [partsVal, hd1, hd2]; norm_num]
    rw [round2, ratFloor_eq_intFloor]
    norm_num
  · have hp : parseParts (keepLastDot (cleanMoney (jsTrim "45.005"))) =
        some (false, ['4', '5'], ['0', '0', '5']) := by decide
    have hd1 : digitsVal ['4', '5'] = 45 := by decide
    have hd2 : digitsVal ['0', '0', '5'] = 5 := by decide
    simp only [toMoney, parseFloatQ, hp, Option.map_some']
    rw [show partsVal (false, ['4', '5'], ['0', '0', '5']) = 45005 / 1000 by
      simp only [partsVal, hd1, hd2]; norm_num]
    rw [round2, ratFloor_eq_intFloor]
    norm_num
  · have hp : parseParts (keepLastDot (cleanMoney (jsTrim ""))) = none := by decide
    simp only [toMoney, parseFloatQ, hp, Option.map_none']

/-! ## C10 — date normalization -/

theorem jsTrim_data (s : String) :
    (jsTrim s).data = List.rdropWhile isWsChar (s.data.dropWhile isWsChar) := rfl

theorem jsTrim_idem (s : String) : jsTrim (jsTrim s) = jsTrim s := by
  apply String.ext
  rw [jsTrim_data, jsTrim_data]
  have h1 : (List.rdropWhile isWsChar (s.data.dropWhile isWsChar)).dropWhile isWsChar =
      List.rdropWhile isWsChar (s.data.dropWhile isWsChar) := by
    rw [List.dropWhile_eq_self_iff]
    intro hl
    rw [List.get_eq_getElem]
    have hpre := List.rdropWhile_prefix isWsChar (s.data.dropWhile isWsChar)
    have hlen : 0 < (s.data.dropWhile isWsChar).length :=
      lt_of_lt_of_le hl hpre.length_le
    rw [hpre.getElem hl]
    have hnot := List.dropWhile_get_zero_not isWsChar s.data hlen
    rw [List.get_eq_getElem] at hnot
    exact hnot
  rw [h1, List.rdropWhile_idempotent]

theorem isWsChar_eq_false_of_digit {c : Char} (h : jsIsDigit c = true) :
    isWsChar c = false := by
  simp only [jsIsDigit, Bool.and_eq_true, decide_eq_true_eq] at h
  simp only [isWsChar, Bool.or_eq_false_iff, beq_eq_false_iff_ne, ne_eq]
  omega

theorem beq_slash_eq_false_of_digit {c : Char} (h : jsIsDigit c = true) :
    (c == '/') = false := by
  simp only [beq_eq_false_iff_ne, ne_eq]
  intro hc
  subst hc
  exact absurd h (by decide)

theorem isDDMMYYYY_shape {s : String} (h : isDDMMYYYY s = true) :
    ∃ d1 d2 m1 m2 y1 y2 y3 y4,
      s.data = [d1, d2, '/', m1, m2, '/', y1, y2, y3, y4] ∧
      jsIsDigit d1 = true ∧ jsIsDigit d2 = true ∧ jsIsDigit m1 = true ∧
      jsIsDigit m2 = true ∧ jsIsDigit y1 = true ∧ jsIsDigit y2 = true ∧
      jsIsDigit y3 = true ∧ jsIsDigit y4 = true := by
  unfold isDDMMYYYY at h
  rcases hs : s.data with _ | ⟨c1, _ | ⟨c2, _ | ⟨c3, _ | ⟨c4, _ | ⟨c5, _ | ⟨c6, _ | ⟨c7, _ | ⟨c8, _ | ⟨c9, _ | ⟨c10, _ | ⟨c11, r⟩⟩⟩⟩⟩⟩⟩⟩⟩⟩⟩ <;>
      rw [hs] at h <;> dsimp only at h <;> try exact absurd h Bool.false_ne_true
  simp only [Bool.and_eq_true, beq_iff_eq] at h
  obtain ⟨⟨⟨⟨⟨⟨⟨⟨⟨h1, h2⟩, h3⟩, h4⟩, h5⟩, h6⟩, h7⟩, h8⟩, h9⟩, h10⟩ := h
  subst h3
  subst h6
  exact ⟨c1, c2, c4, c5, c7, c8, c9, c10, rfl, h1, h2, h4, h5, h7, h8, h9, h10⟩

theorem isYYYYMMDD_shape {s : String} (h : isYYYYMMDD s = true) :
    ∃ y1 y2 y3 y4 m1 m2 d1 d2,
      s.data = [y1, y2, y3, y4, '-', m1, m2, '-', d1, d2] ∧
      jsIsDigit y1 = true ∧ jsIsDigit y2 = true ∧ jsIsDigit y3 = true ∧
      jsIsDigit y4 = true ∧ jsIsDigit m1 = true ∧ jsIsDigit m2 = true ∧
      jsIsDigit d1 = true ∧ jsIsDigit d2 = true := by
  unfold isYYYYMMDD at h
  rcases hs : s.data with _ | ⟨c1, _ | ⟨c2, _ | ⟨c3, _ | ⟨c4, _ | ⟨c5, _ | ⟨c6, _ | ⟨c7, _ | ⟨c8, _ | ⟨c9, _ | ⟨c10, _ | ⟨c11, r⟩⟩⟩⟩⟩⟩⟩⟩⟩⟩⟩ <;>
      rw [hs] at h <;> dsimp only at h <;> try exact absurd h Bool.false_ne_true
  simp only [Bool.and_eq_true, beq_iff_eq] at h
  obtain ⟨⟨⟨⟨⟨⟨⟨⟨⟨h1, h2⟩, h3⟩, h4⟩, h5⟩, h6⟩, h7⟩, h8⟩, h9⟩, h10⟩ := h
  subst h5
  subst h8
  exact ⟨c1, c2, c3, c4, c6, c7, c9, c10, rfl, h1, h2, h3, h4, h6, h7, h9, h10⟩

theorem jsTrim_explicit10 (a b c d e f g h i j : Char)
    (ha : isWsChar a = false) (hj : isWsChar j = false) :
    jsTrim ⟨[a, b, c, d, e, f, g, h, i, j]⟩ = (⟨[a, b, c, d, e, f, g, h, i, j]⟩ : String) := by
  apply String.ext
  rw [jsTrim_data]
  show List.rdropWhile isWsChar
    (List.dropWhile isWsChar ([a] ++ ([b, c, d, e, f, g, h, i] ++ [j]))) = _
  rw [List.singleton_append, List.dropWhile_cons, if_neg (by simp [ha])]
  rw [show a :: ([b, c, d, e, f, g, h, i] ++ [j]) =
    (a :: [b, c, d, e, f, g, h, i]) ++ [j] from rfl]
  rw [List.rdropWhile_concat_neg _ _ j (by simp [hj])]
  rfl

theorem isDDMMYYYY_of_iso_shape_false (y1 y2 y3 y4 m1 m2 d1 d2 : Char)
    (h3 : jsIsDigit y3 = true) :
    isDDMMYYYY ⟨[y1, y2, y3, y4, '-', m1, m2, '-', d1, d2]⟩ = false := by
  show (jsIsDigit y1 && jsIsDigit y2 && (y3 == '/') && jsIsDigit y4 && jsIsDigit '-' &&
    ((m1 : Char) == '/') && jsIsDigit m2 && jsIsDigit '-' && jsIsDigit d1 && jsIsDigit d2) = false
  rw [beq_slash_eq_false_of_digit h3]
  simp

theorem isYYYYMMDD_of_iso_shape (y1 y2 y3 y4 m1 m2 d1 d2 : Char)
    (h1 : jsIsDigit y1 = true) (h2 : jsIsDigit y2 = true) (h3 : jsIsDigit y3 = true)
    (h4 : jsIsDigit y4 = true) (h5 : jsIsDigit m1 = true) (h6 : jsIsDigit m2 = true)
    (h7 : jsIsDigit d1 = true) (h8 : jsIsDigit d2 = true) :
    isYYYYMMDD ⟨[y1, y2, y3, y4, '-', m1, m2, '-', d1, d2]⟩ = true := by
  show (jsIsDigit y1 && jsIsDigit y2 && jsIsDigit y3 && jsIsDigit y4 && ('-' == '-') &&
    jsIsDigit m1 && jsIsDigit m2 && ('-' == '-') && jsIsDigit d1 && jsIsDigit d2) = true
  simp [h1, h2, h3, h4, h5, h6, h7, h8]

/-- `normalizeFecha` applied to a string that is already trimmed and
matches neither date shape returns it unchanged. -/
theorem normalizeFecha_of_neither {t : String} (ht : jsTrim t = t)
    (hdd : isDDMMYYYY t = false) (hiso : isYYYYMMDD t = false) :
    normalizeFecha (some t) = t := by
  simp only [normalizeFecha, Option.getD_some, ht, hdd, hiso]
  simp

/-- `normalizeFecha` on an already-ISO string is the identity. -/
theorem normalizeFecha_of_iso {t : String} (hiso : isYYYYMMDD t = true) :
    normalizeFecha (some t) = t := by
  obtain ⟨y1, y2, y3, y4, m1, m2, d1, d2, hs, h1, h2, h3, h4, h5, h6, h7, h8⟩ :=
    isYYYYMMDD_shape hiso
  have hts : t = ⟨[y1, y2, y3, y4, '-', m1, m2, '-', d1, d2]⟩ := String.ext hs
  subst hts
  have htrim := jsTrim_explicit10 y1 y2 y3 y4 '-' m1 m2 '-' d1 d2
    (isWsChar_eq_false_of_digit h1) (isWsChar_eq_false_of_digit h8)
  simp only [normalizeFecha, Option.getD_some, htrim,
    isDDMMYYYY_of_iso_shape_false y1 y2 y3 y4 m1 m2 d1 d2 h3, hiso]
  simp

/-- C10 counterexample: the claim says any string that matches neither
date shape is returned unchanged, but `normalizeFecha` first trims its
input: `" A "` comes back as `"A"`, a different string. -/
theorem C10_counterexample :
    normalizeFecha (some " A ") = "A" ∧ normalizeFecha (some " A ") ≠ " A " := by
  constructor
  · decide
  · decide

/-- C10 amended: `normalizeFecha` maps a (trimmed) `DD/MM/YYYY` string to
the corresponding `YYYY-MM-DD` string, leaves a `YYYY-MM-DD` string
unchanged, and returns any other string trimmed of surrounding whitespace
but otherwise unchanged, without validating the digits; consequently it is
idempotent on every string. -/
theorem C10_normalizeFecha :
    (∀ s : String, normalizeFecha (some (normalizeFecha (some s))) = normalizeFecha (some s)) ∧
    (∀ c1 c2 c3 c4 c5 c6 c7 c8 : Char,
      jsIsDigit c1 = true → jsIsDigit c2 = true → jsIsDigit c3 = true →
      jsIsDigit c4 = true → jsIsDigit c5 = true → jsIsDigit c6 = true →
      jsIsDigit c7 = true → jsIsDigit c8 = true →
      normalizeFecha (some ⟨[c1, c2, '/', c3, c4, '/', c5, c6, c7, c8]⟩) =
        (⟨[c5, c6, c7, c8, '-', c3, c4, '-', c1, c2]⟩ : String)) ∧
    (∀ s : String, isYYYYMMDD s = true → normalizeFecha (some s) = s) ∧
    (∀ s : String, isDDMMYYYY (jsTrim s) = false → isYYYYMMDD (jsTrim s) = false →
      normalizeFecha (some s) = jsTrim s) := by
  have hconv : ∀ c1 c2 c3 c4 c5 c6 c7 c8 : Char,
      jsIsDigit c1 = true → jsIsDigit c2 = true → jsIsDigit c3 = true →
      jsIsDigit c4 = true → jsIsDigit c5 = true → jsIsDigit c6 = true →
      jsIsDigit c7 = true → jsIsDigit c8 = true →
      normalizeFecha (some ⟨[c1, c2, '/', c3, c4, '/', c5, c6, c7, c8]⟩) =
        (⟨[c5, c6, c7, c8, '-', c3, c4, '-', c1, c2]⟩ : String) := by
    intro c1 c2 c3 c4 c5 c6 c7 c8 h1 h2 h3 h4 h5 h6 h7 h8
    have htrim := jsTrim_explicit10 c1 c2 '/' c3 c4 '/' c5 c6 c7 c8
      (isWsChar_eq_false_of_digit h1) (isWsChar_eq_false_of_digit h8)
    have hdd : isDDMMYYYY ⟨[c1, c2, '/', c3, c4, '/', c5, c6, c7, c8]⟩ = true := by
      show (jsIsDigit c1 && jsIsDigit c2 && ('/' == '/') && jsIsDigit c3 && jsIsDigit c4 &&
        ('/' == '/') && jsIsDigit c5 && jsIsDigit c6 && jsIsDigit c7 && jsIsDigit c8) = true
      simp [h1, h2, h3, h4, h5, h6, h7, h8]
    simp only [normalizeFecha, Option.getD_some, htrim, hdd]
    simp only [if_true]
    rfl
  refine ⟨?_, hconv, fun s hiso => normalizeFecha_of_iso hiso, ?_⟩
  · intro s
    by_cases hdd : isDDMMYYYY (jsTrim s) = true
    · obtain ⟨d1, d2, m1, m2, y1, y2, y3, y4, hs, h1, h2, h3, h4, h5, h6, h7, h8⟩ :=
        isDDMMYYYY_shape hdd
      have hres : normalizeFecha (some s) = ⟨[y1, y2, y3, y4, '-', m1, m2, '-', d1, d2]⟩ := by
        have hswap : swapDDMM (jsTrim s) = ⟨[y1, y2, y3, y4, '-', m1, m2, '-', d1, d2]⟩ := by
          unfold swapDDMM
          rw [hs]
        simp only [normalizeFecha, Option.getD_some, hdd, if_true, hswap]
      rw [hres]
      exact normalizeFecha_of_iso
        (isYYYYMMDD_of_iso_shape y1 y2 y3 y4 m1 m2 d1 d2 h5 h6 h7 h8 h3 h4 h1 h2)
    · rw [Bool.not_eq_true] at hdd
      by_cases hiso : isYYYYMMDD (jsTrim s) = true
      · have hres : normalizeFecha (some s) = jsTrim s := by
          simp only [normalizeFecha, Option.getD_some, hdd, hiso]
          simp
        rw [hres]
        exact normalizeFecha_of_iso hiso
      · rw [Bool.not_eq_true] at hiso
        have hres : normalizeFecha (some s) = jsTrim s := by
          simp only [normalizeFecha, Option.getD_some, hdd, hiso]
          simp
        rw [hres]
        exact normalizeFecha_of_neither (jsTrim_idem s) hdd hiso
  · intro s hdd hiso
    simp only [normalizeFecha, Option.getD_some, hdd, hiso]
    simp

/-- Witness for C10: `"10/02/2024"` is converted to `"2024-02-10"`. -/
theorem C10_witness : normalizeFecha (some "10/02/2024") = "2024-02-10" :=
  C10_normalizeFecha.2.1 '1' '0' '0' '2' '2' '0' '2' '4' (by decide) (by decide)
    (by decide) (by decide) (by decide) (by decide) (by decide) (by decide)

/-! ## C8 — voucher serie derivation -/

theorem nfdChar_ascii {c : Char} (h : c.toNat < 128) : nfdChar c = [c] := by
  unfold nfdChar
  split
  all_goals first
  | rfl
  | exact absurd h (by decide)

theorem firstToken_subset (s : String) : ∀ c ∈ (firstToken s).data, c ∈ s.data := by
  intro c hc
  unfold firstToken at hc
  have h1 : c ∈ (jsTrim s).data := (List.takeWhile_sublist _).subset hc
  rw [jsTrim_data] at h1
  have hpre := List.rdropWhile_prefix isWsChar (s.data.dropWhile isWsChar)
  have h2 : c ∈ s.data.dropWhile isWsChar := hpre.sublist.subset h1
  exact (List.dropWhile_sublist isWsChar).subset h2

theorem stripAccentChar_ascii {c : Char} (h : c.toNat < 128) :
    stripAccentChar c = c := by
  unfold stripAccentChar
  rw [nfdChar_ascii h]
  have hcomb : isCombining c = false := by
    simp only [isCombining, Bool.and_eq_false_iff, decide_eq_false_iff_not, not_le]
    omega
  simp [List.filter, hcomb]

/-- C8 counterexample: the claim says serie(firstName, lastName) equals the
first letter of the first token of each name (upper-cased, accent-stripped,
`X` fallback), but `serieFromName` — the function the voucher code is built
from in server.cjs, part_002 and `src/utils.js` — takes the first TWO
letters of each name and appends `"001"`: on the seeded worker
`("YRVING","LEON")` it returns `"YRLE001"`, not `"YL"`. -/
theorem C8_counterexample :
    serieFromName "YRVING" "LEON" = "YRLE001" ∧
    serieSpec "YRVING" "LEON" = "YL" ∧
    serieFromName "YRVING" "LEON" ≠ serieSpec "YRVING" "LEON" := by
  refine ⟨by decide, by decide, by decide⟩

/-- C8 amended: the voucher serie functions are pure; the part_003
`initialsSerie` follows the claimed rule (first letter of the first token
of each name, upper-cased, `X` fallback) for ASCII names — though without
accent stripping, which is invisible on ASCII input — while the
server.cjs/`src/utils.js` `serieFromName` instead takes the first two
accent-stripped upper-cased letters of each name followed by `"001"`, and
on empty input degrades to `"001"` rather than throwing. -/
theorem C8_serieFunctions :
    (∀ n a : String, (∀ c ∈ n.data, c.toNat < 128) → (∀ c ∈ a.data, c.toNat < 128) →
      initialsSerie n a = serieSpec n a) ∧
    serieFromName "" "" = "001" := by
  constructor
  · intro n a hn ha
    have key : ∀ s : String, (∀ c ∈ s.data, c.toNat < 128) →
        jsToUpperChar ((firstToken s).data.headD 'X') = serieSpecInitial s := by
      intro s hs
      unfold serieSpecInitial
      cases hft : (firstToken s).data with
      | nil =>
        show jsToUpperChar 'X' = 'X'
        decide
      | cons c rest =>
        simp only [List.headD_cons]
        have hc : c ∈ s.data :=
          firstToken_subset s c (by rw [hft]; exact List.mem_cons_self c rest)
        rw [stripAccentChar_ascii (hs c hc)]
    apply String.ext
    show [jsToUpperChar ((firstToken n).data.headD 'X'),
          jsToUpperChar ((firstToken a).data.headD 'X')] =
      [serieSpecInitial n, serieSpecInitial a]
    rw [key n hn, key a ha]
  · decide

/-- Witness for C8: on the seeded worker name `("JOEL","GARGATE")` (ASCII)
the part_003 rule and the spec rule coincide. -/
theorem C8_witness :
    initialsSerie "JOEL" "GARGATE" = serieSpec "JOEL" "GARGATE" :=
  C8_serieFunctions.1 "JOEL" "GARGATE" (by decide) (by decide)

/-! ## C5 — the cap decision -/

/-- C5 counterexample: the claim says a submission is rejected with a
cap-exceeded error iff `accumulated + candidate > TOPE + 1e-6`.  In
server.js the comparison is strict `> TOPE` with no epsilon (and `TOPE` is
the literal `45.0` in the handler): with `40.00` already accumulated, a
candidate of `5.0000005` is rejected although
`40 + 5.0000005 = 45.0000005 ≤ 45 + 1e-6`. -/
theorem C5_counterexample :
    (submitJs
      ⟨[⟨"usuario@empresa.com", "44081950", "JOEL", "GARGATE", true⟩],
       [("44081950", 1)],
       [⟨"44081950", "usuario@empresa.com", "2024-01-10", "JOGA001", 1, 40, 40⟩]⟩
      "44081950" "2024-01-10" [5 + 1 / 2000000] none).1 = .capExceeded ∧
    (40 : ℚ) + (5 + 1 / 2000000) ≤ 45 + 1 / 1000000 := by
  constructor
  · have hacum : acumJs
        [⟨"44081950", "usuario@empresa.com", "2024-01-10", "JOGA001", 1, 40, 40⟩]
        "44081950" "2024-01-10" = 40 := by
      show ((([(⟨"44081950", "usuario@empresa.com", "2024-01-10", "JOGA001", 1, 40, 40⟩ :
        Row)].map Row.num).dedup).map _).sum = 40
      norm_num [List.dedup, List.filter, rowMatches]
    have huser : findUserByDni
        [⟨"usuario@empresa.com", "44081950", "JOEL", "GARGATE", true⟩] "44081950" =
        some ⟨"usuario@empresa.com", "44081950", "JOEL", "GARGATE", true⟩ := by decide
    simp only [submitJs, huser]
    norm_num [hacum]
    decide
  · norm_num

/-- C5 amended: in the part_001 variant the decision is exactly the claimed
one — once the payload is valid and the worker exists and is active, the
submission is rejected with `CapExceeded` iff
`accumulated + round2(Σ montos) > tope + 1e-6`, where `tope` is the
configured cap (env `TOPE`), not a compile-time constant.  The
server.js/server.cjs variants instead compare strictly against `TOPE`
with no epsilon (see the counterexample), and in server.js the cap is the
hard-coded literal `45.0`. -/
theorem C5_capDecisionP1 (tope : ℚ) (st : P1State) (dni email fecha : String)
    (montos : List ℚ) (u : User)
    (hdni : dni ≠ "") (hemail : email ≠ "") (hfecha : fecha ≠ "")
    (hmontos : montos ≠ []) (hu : findUser st.usuarios email = some u)
    (hact : u.activo = true) :
    (submitP1 tope st dni email fecha montos).1 = .capExceeded ↔
      tope + 1 / 1000000 < sumItemsJoinP1 st dni fecha + round2 montos.sum := by
  simp only [submitP1, hdni, hemail, hfecha, hmontos, hu, hact, Bool.true_eq_false,
    if_false, or_self, or_false, false_or]
  split_ifs with hcap
  · rw [one_div] at hcap
    simp [hcap]
  · rw [one_div] at hcap
    simp [hcap, le_of_not_lt hcap]

/-- Witness for C5: a 50.00 submission against an empty day under the
default cap 45 sits on the rejecting side of the iff. -/
theorem C5_witness :
    (submitP1 45
      ⟨[⟨"usuario@empresa.com", "44081950", "JOEL", "GARGATE", true⟩], [], [], []⟩
      "44081950" "usuario@empresa.com" "2024-01-10" [50]).1 = .capExceeded ↔
      (45 : ℚ) + 1 / 1000000 <
        sumItemsJoinP1
          ⟨[⟨"usuario@empresa.com", "44081950", "JOEL", "GARGATE", true⟩], [], [], []⟩
          "44081950" "2024-01-10" + round2 ([(50 : ℚ)].sum) :=
  C5_capDecisionP1 45 _ "44081950" "usuario@empresa.com" "2024-01-10" [50]
    ⟨"usuario@empresa.com", "44081950", "JOEL", "GARGATE", true⟩
    (by decide) (by decide) (by decide) (by decide) rfl rfl

/-! ## C7 — empty-submission handling -/

/-- C7 counterexample: the claim says items with non-positive cleaned
amounts are dropped and an all-dropped submission is rejected as empty.
server.js performs no per-item filtering: a submission whose only item has
amount 0 is accepted with total 0 — it allocates voucher `JOGA001 00001`
and persists one `historial` row. -/
theorem C7_counterexample :
    (submitJs
      ⟨[⟨"usuario@empresa.com", "44081950", "JOEL", "GARGATE", true⟩], [], []⟩
      "44081950" "2024-01-10" [0] none).1 = .ok "JOGA001" 1 0 ∧
    (submitJs
      ⟨[⟨"usuario@empresa.com", "44081950", "JOEL", "GARGATE", true⟩], [], []⟩
      "44081950" "2024-01-10" [0] none).2.historial.length = 1 := by
  have huser : findUserByDni
      [⟨"usuario@empresa.com", "44081950", "JOEL", "GARGATE", true⟩] "44081950" =
      some ⟨"usuario@empresa.com", "44081950", "JOEL", "GARGATE", true⟩ := by decide
  have hacum : acumJs ([] : List Row) "44081950" "2024-01-10" = 0 := by
    norm_num [acumJs, List.dedup, List.filter]
  constructor
  · simp only [submitJs, huser]
    norm_num [hacum]
    decide
  · simp only [submitJs, huser]
    norm_num [hacum]
    decide

/-- C7 amended: the v9 variant behaves as the claim says — item amounts are
cleaned with `toMoney` and non-positive ones dropped before any total is
computed, a submission in which no item survives is rejected with the
empty-submission error (and no state change), and an accepted submission's
total is the 2-decimal sum of the surviving amounts only.  The server.js
variant performs no per-item filtering and accepts an all-zero submission
with total 0 (see the counterexample). -/
theorem C7_emptyFiltering (tope : ℚ) (st : ServerState) (dni email fecha : String)
    (rawItems : List (Option String)) (failAt : Option ℕ)
    (hdni : dni ≠ "") (hemail : email ≠ "") (hfecha : fecha ≠ "") :
    ((rawItems.map toMoney).filter (fun m => decide (0 < m)) = [] →
      submitV9 tope st dni email fecha rawItems failAt = (.emptyItems, st)) ∧
    (∀ serie num total,
      (submitV9 tope st dni email fecha rawItems failAt).1 = .ok serie num total →
      total = round2 (((rawItems.map toMoney).filter (fun m => decide (0 < m))).sum)) := by
  constructor
  · intro hempty
    simp only [submitV9, hdni, hemail, hfecha, or_self, or_false, false_or, if_false,
      hempty]
    simp
  · intro serie num total hok
    simp only [submitV9, hdni, hemail, hfecha, or_self, or_false, false_or, if_false] at hok
    by_cases hempty : (rawItems.map toMoney).filter (fun m => decide (0 < m)) = []
    · rw [if_pos hempty] at hok
      exact absurd hok (by simp)
    · rw [if_neg hempty] at hok
      cases hfind : findUser st.usuarios email with
      | none =>
        rw [hfind] at hok
        exact absurd hok (by simp)
      | some u =>
        rw [hfind] at hok
        dsimp only at hok
        by_cases hcap : tope < daySum st.historial dni (normalizeFecha (some fecha)) +
            round2 ((rawItems.map toMoney).filter (fun m => decide (0 < m))).sum
        · rw [if_pos hcap] at hok
          exact absurd hok (by simp)
        · rw [if_neg hcap] at hok
          cases failAt with
          | none =>
            dsimp only at hok
            simp only [Result.ok.injEq] at hok
            exact hok.2.2.symm
          | some i =>
            dsimp only at hok
            by_cases hi : i < ((rawItems.map toMoney).filter (fun m => decide (0 < m))).length
            · rw [if_pos hi] at hok
              exact absurd hok (by simp)
            · rw [if_neg hi] at hok
              simp only [Result.ok.injEq] at hok
              exact hok.2.2.symm

/-- Witness for C7: a single `null` item cleans to 0 and is dropped, so the
v9 endpoint rejects the submission as empty and leaves the state
untouched. -/
theorem C7_witness :
    submitV9 45 ⟨[], [], []⟩ "44081950" "usuario@empresa.com" "2024-01-10" [none] none =
      (.emptyItems, ⟨[], [], []⟩) :=
  (C7_emptyFiltering 45 ⟨[], [], []⟩ "44081950" "usuario@empresa.com" "2024-01-10"
    [none] none (by decide) (by decide) (by decide)).1 (by decide)

/-! ## C2 — atomicity on failure -/

theorem getCounter_allocNextCjs (cs : List (String × ℕ)) (dni : String) :
    getCounter (allocNextCjs cs dni).2 dni = some (allocNextCjs cs dni).1 := by
  cases h : getCounter cs dni with
  | none => simp [allocNextCjs, h, getCounter_putCounter_same]
  | some n => simp [allocNextCjs, h, getCounter_putCounter_same]

/-- C2 counterexample: the claim says a failure after validation rolls
everything back, including the per-worker sequence counter increment.  In
server.js the counter is read and upserted through the pool BEFORE the
insert transaction: when the insert of the second line item fails, the
rollback removes the rows (zero persisted) but the counter stays bumped at
1. -/
theorem C2_counterexample :
    (submitJs
      ⟨[⟨"usuario@empresa.com", "44081950", "JOEL", "GARGATE", true⟩], [], []⟩
      "44081950" "2024-01-10" [10, 5] (some 1)).1 = .dbError ∧
    (submitJs
      ⟨[⟨"usuario@empresa.com", "44081950", "JOEL", "GARGATE", true⟩], [], []⟩
      "44081950" "2024-01-10" [10, 5] (some 1)).2.historial = [] ∧
    getCounter
      (submitJs
        ⟨[⟨"usuario@empresa.com", "44081950", "JOEL", "GARGATE", true⟩], [], []⟩
        "44081950" "2024-01-10" [10, 5] (some 1)).2.counters "44081950" = some 1 := by
  have huser : findUserByDni
      [⟨"usuario@empresa.com", "44081950", "JOEL", "GARGATE", true⟩] "44081950" =
      some ⟨"usuario@empresa.com", "44081950", "JOEL", "GARGATE", true⟩ := by decide
  have hacum : acumJs ([] : List Row) "44081950" "2024-01-10" = 0 := by
    norm_num [acumJs, List.dedup, List.filter]
  refine ⟨?_, ?_, ?_⟩ <;>
    (simp only [submitJs, huser]
     norm_num [hacum]
     decide)

/-- C2 amended: in the server.cjs variant the whole submission — user
lookup, cap check, counter upsert and line-item inserts — runs in one
transaction, so a storage failure at any line-item insert leaves the state
exactly unchanged (the counter increment does not survive), and a
successful call persists exactly the submission's rows (all carrying the
returned voucher number) and the bumped counter.  In the server.js variant
the counter bump precedes the transaction and survives a failed insert
(see the counterexample). -/
theorem C2_cjsAtomicity (tope : ℚ) (st : ServerState) (dni email fecha : String)
    (items : List ℚ) (i : ℕ) (hi : i < items.length) :
    (submitCjs tope st dni email fecha items (some i)).2 = st ∧
    (∀ serie num total,
      (submitCjs tope st dni email fecha items none).1 = .ok serie num total →
      (submitCjs tope st dni email fecha items none).2.historial =
        st.historial ++ items.map (fun m =>
          { dni := dni, email := jsToLower email, fecha := normalizeFecha (some fecha),
            serie := serie, num := num, monto := round2 m, total := round2 m : Row }) ∧
      getCounter (submitCjs tope st dni email fecha items none).2.counters dni =
        some num) := by
  constructor
  · simp only [submitCjs]
    by_cases hbad : dni = "" ∨ email = "" ∨ fecha = "" ∨ items = []
    · rw [if_pos hbad]
    · rw [if_neg hbad]
      cases hfind : findUser st.usuarios email with
      | none => rfl
      | some u =>
        try dsimp only
        by_cases hcap : tope < daySum st.historial dni (normalizeFecha (some fecha)) +
            round2 items.sum
        · rw [if_pos hcap]
        · rw [if_neg hcap]
          try dsimp only
          rw [if_pos hi]
  · intro serie num total hok
    simp only [submitCjs] at hok ⊢
    by_cases hbad : dni = "" ∨ email = "" ∨ fecha = "" ∨ items = []
    · rw [if_pos hbad] at hok
      exact absurd hok (by simp)
    · rw [if_neg hbad] at hok ⊢
      cases hfind : findUser st.usuarios email with
      | none =>
        rw [hfind] at hok
        exact absurd hok (by simp)
      | some u =>
        rw [hfind] at hok
        dsimp only at hok ⊢
        by_cases hcap : tope < daySum st.historial dni (normalizeFecha (some fecha)) +
            round2 items.sum
        · rw [if_pos hcap] at hok
          exact absurd hok (by simp)
        · rw [if_neg hcap] at hok ⊢
          try dsimp only at hok ⊢
          simp only [Result.ok.injEq] at hok
          obtain ⟨hs, hn, ht⟩ := hok
          subst hs
          subst hn
          exact ⟨rfl, getCounter_allocNextCjs st.counters dni⟩

/-- Witness for C2: a failing insert of the only line item leaves the
state exactly as it was. -/
theorem C2_witness :
    (submitCjs 45
      ⟨[⟨"usuario@empresa.com", "44081950", "JOEL", "GARGATE", true⟩], [], []⟩
      "44081950" "usuario@empresa.com" "2024-01-10" [10] (some 0)).2 =
      ⟨[⟨"usuario@empresa.com", "44081950", "JOEL", "GARGATE", true⟩], [], []⟩ :=
  (C2_cjsAtomicity 45
    ⟨[⟨"usuario@empresa.com", "44081950", "JOEL", "GARGATE", true⟩], [], []⟩
    "44081950" "usuario@empresa.com" "2024-01-10" [10] 0 (by decide)).1

/-! ## C1 — the daily-cap invariant -/

/-- C1 counterexample: in server.cjs the cap check compares
`round2(Σ montos)` while each stored row carries `round2(monto)`, so
sub-cent raw amounts break the invariant.  From an empty ledger, worker
44081950 submits 44.99, then submits two items of 0.005 each: the check
sees `44.99 + round2(0.01) = 45.00 ≤ 45` and ACCEPTS, but the two rows are
stored as 0.01 each, so the recorded daily sum becomes
`45.01 > 45 + 1e-6`. -/
theorem C1_counterexample :
    (45 : ℚ) + 1 / 1000000 <
      daySum (submitCjs 45
        (submitCjs 45
          ⟨[⟨"usuario@empresa.com", "44081950", "JOEL", "GARGATE", true⟩], [], []⟩
          "44081950" "usuario@empresa.com" "2024-01-10" [4499 / 100] none).2
        "44081950" "usuario@empresa.com" "2024-01-10" [1 / 200, 1 / 200] none).2.historial
        "44081950" "2024-01-10" ∧
    (submitCjs 45
        (submitCjs 45
          ⟨[⟨"usuario@empresa.com", "44081950", "JOEL", "GARGATE", true⟩], [], []⟩
          "44081950" "usuario@empresa.com" "2024-01-10" [4499 / 100] none).2
        "44081950" "usuario@empresa.com" "2024-01-10" [1 / 200, 1 / 200] none).1 =
      .ok "JOGA001" 2 (1 / 100) := by
  have hfind : findUser [⟨"usuario@empresa.com", "44081950", "JOEL", "GARGATE", true⟩]
      "usuario@empresa.com" =
      some ⟨"usuario@empresa.com", "44081950", "JOEL", "GARGATE", true⟩ := by decide
  have hfecha : normalizeFecha (some "2024-01-10") = "2024-01-10" := by decide
  have hserie : serieFromName "JOEL" "GARGATE" = "JOGA001" := by decide
  have hlower : jsToLower "usuario@empresa.com" = "usuario@empresa.com" := by decide
  have h1 : submitCjs 45
      ⟨[⟨"usuario@empresa.com", "44081950", "JOEL", "GARGATE", true⟩], [], []⟩
      "44081950" "usuario@empresa.com" "2024-01-10" [4499 / 100] none =
    (.ok "JOGA001" 1 (4499 / 100),
     ⟨[⟨"usuario@empresa.com", "44081950", "JOEL", "GARGATE", true⟩],
      [("44081950", 1)],
      [⟨"44081950", "usuario@empresa.com", "2024-01-10", "JOGA001", 1, 4499 / 100,
        4499 / 100⟩]⟩) := by
    simp only [submitCjs, hfind, hfecha, hserie, hlower]
    rw [if_neg (by decide)]
    norm_num [daySum, List.filter, rowMatches, round2, ratFloor_eq_intFloor,
      allocNextCjs, getCounter, putCounter]
  have h2 : submitCjs 45
      ⟨[⟨"usuario@empresa.com", "44081950", "JOEL", "GARGATE", true⟩],
       [("44081950", 1)],
       [⟨"44081950", "usuario@empresa.com", "2024-01-10", "JOGA001", 1, 4499 / 100,
         4499 / 100⟩]⟩
      "44081950" "usuario@empresa.com" "2024-01-10" [1 / 200, 1 / 200] none =
    (.ok "JOGA001" 2 (1 / 100),
     ⟨[⟨"usuario@empresa.com", "44081950", "JOEL", "GARGATE", true⟩],
      [("44081950", 2)],
      [⟨"44081950", "usuario@empresa.com", "2024-01-10", "JOGA001", 1, 4499 / 100,
        4499 / 100⟩,
       ⟨"44081950", "usuario@empresa.com", "2024-01-10", "JOGA001", 2, 1 / 100, 1 / 100⟩,
       ⟨"44081950", "usuario@empresa.com", "2024-01-10", "JOGA001", 2, 1 / 100,
         1 / 100⟩]⟩) := by
    simp only [submitCjs, hfind, hfecha, hserie, hlower]
    rw [if_neg (by decide)]
    norm_num [daySum, List.filter, rowMatches, round2, ratFloor_eq_intFloor,
      allocNextCjs, getCounter, putCounter]
  rw [h1, h2]
  constructor
  · norm_num [daySum, List.filter, rowMatches]
  · rfl

theorem daySum_map_rows (dni email fecha serie : String) (num : ℕ) (ms : List ℚ)
    (d f : String) :
    daySum (ms.map (fun m =>
      { dni := dni, email := email, fecha := fecha, serie := serie, num := num,
        monto := m, total := m : Row })) d f =
      if dni = d ∧ fecha = f then ms.sum else 0 := by
  unfold daySum
  rw [List.filter_map, List.map_map]
  by_cases hm : dni = d ∧ fecha = f
  · rw [if_pos hm]
    have hp : (rowMatches d f ∘ fun m : ℚ =>
        ({ dni := dni, email := email, fecha := fecha, serie := serie, num := num,
           monto := m, total := m } : Row)) = fun _ => true := by
      funext m
      show decide (dni = d ∧ fecha = f) = true
      exact decide_eq_true hm
    rw [hp, List.filter_true]
    have hid : (Row.total ∘ fun m : ℚ =>
        ({ dni := dni, email := email, fecha := fecha, serie := serie, num := num,
           monto := m, total := m } : Row)) = id := by
      funext m
      rfl
    rw [hid, List.map_id]
  · rw [if_neg hm]
    have hp : (rowMatches d f ∘ fun m : ℚ =>
        ({ dni := dni, email := email, fecha := fecha, serie := serie, num := num,
           monto := m, total := m } : Row)) = fun _ => false := by
      funext m
      show decide (dni = d ∧ fecha = f) = false
      exact decide_eq_false hm
    rw [hp, List.filter_false]
    simp

theorem toMoney_filter_sum_isCents (rawItems : List (Option String)) :
    isCents ((rawItems.map toMoney).filter (fun m => decide (0 < m))).sum := by
  apply isCents_sum
  intro q hq
  have hq2 := List.mem_of_mem_filter hq
  obtain ⟨v, _, hv⟩ := List.mem_map.mp hq2
  rw [← hv]
  exact toMoney_isCents v

theorem submitV9_daySum_le (tope : ℚ) (st : ServerState) (dni email fecha : String)
    (rawItems : List (Option String)) (failAt : Option ℕ)
    (hInv : ∀ d f, daySum st.historial d f ≤ tope) :
    ∀ d f, daySum (submitV9 tope st dni email fecha rawItems failAt).2.historial d f ≤ tope := by
  intro d f
  simp only [submitV9]
  by_cases hbad : dni = "" ∨ email = "" ∨ fecha = ""
  · rw [if_pos hbad]
    exact hInv d f
  · rw [if_neg hbad]
    by_cases hempty : (rawItems.map toMoney).filter (fun m => decide (0 < m)) = []
    · rw [if_pos hempty]
      exact hInv d f
    · rw [if_neg hempty]
      cases hfind : findUser st.usuarios email with
      | none => exact hInv d f
      | some u =>
        dsimp only
        by_cases hcap : tope < daySum st.historial dni (normalizeFecha (some fecha)) +
            round2 ((rawItems.map toMoney).filter (fun m => decide (0 < m))).sum
        · rw [if_pos hcap]
          exact hInv d f
        · rw [if_neg hcap]
          have hkey : daySum (st.historial ++
              ((rawItems.map toMoney).filter (fun m => decide (0 < m))).map (fun m =>
                { dni := dni, email := jsToLower email,
                  fecha := normalizeFecha (some fecha),
                  serie := serieFromName u.nombres u.apellidos,
                  num := (allocNextCjs st.counters dni).1, monto := m, total := m : Row}))
              d f ≤ tope := by
            rw [daySum_append, daySum_map_rows]
            by_cases hm : dni = d ∧ normalizeFecha (some fecha) = f
            · rw [if_pos hm]
              have hsum : ((rawItems.map toMoney).filter (fun m => decide (0 < m))).sum =
                  round2 ((rawItems.map toMoney).filter (fun m => decide (0 < m))).sum :=
                (round2_cents_fixed (toMoney_filter_sum_isCents rawItems)).symm
              rw [← hm.1, ← hm.2]
              rw [hsum]
              exact le_of_not_lt hcap
            · rw [if_neg hm]
              rw [add_zero]
              exact hInv d f
          cases failAt with
          | none => exact hkey
          | some i =>
            dsimp only
            by_cases hi : i <
                ((rawItems.map toMoney).filter (fun m => decide (0 < m))).length
            · rw [if_pos hi]
              exact hInv d f
            · rw [if_neg hi]
              exact hkey

theorem runV9_daySum_le (tope : ℚ) (ops : List V9Op) : ∀ (st : ServerState),
    (∀ d f, daySum st.historial d f ≤ tope) →
    ∀ d f, daySum (runV9 tope st ops).historial d f ≤ tope := by
  induction ops with
  | nil =>
    intro st hInv d f
    exact hInv d f
  | cons o rest ih =>
    intro st hInv d f
    exact ih (submitV9 tope st o.dni o.email o.fecha o.rawItems o.failAt).2
      (submitV9_daySum_le tope st o.dni o.email o.fecha o.rawItems o.failAt hInv) d f

/-- C1 amended: in the v9 variant (amounts pre-cleaned to 2-decimal values
by `toMoney`, non-positive items dropped), after any sequence of
submissions from an empty ledger the recorded daily sum of every worker
and date stays within the configured cap, and every cap rejection is a
submission whose cleaned total really would have pushed the day's sum over
the cap.  In the server.cjs variant, raw sub-cent amounts can push the
recorded sum past `TOPE + 1e-6` (see the counterexample); when all
submitted amounts are exact 2-decimal values the two variants coincide. -/
theorem C1_capInvariantV9 (tope : ℚ) (htope : 0 ≤ tope) (usuarios : List User)
    (counters : List (String × ℕ)) (ops : List V9Op) :
    (∀ dni fecha,
      daySum (runV9 tope ⟨usuarios, counters, []⟩ ops).historial dni fecha ≤ tope) ∧
    (∀ (st : ServerState) (dni email fecha : String) (rawItems : List (Option String))
      (failAt : Option ℕ),
      (submitV9 tope st dni email fecha rawItems failAt).1 = .capExceeded →
      tope < daySum st.historial dni (normalizeFecha (some fecha)) +
        round2 ((rawItems.map toMoney).filter (fun m => decide (0 < m))).sum) := by
  constructor
  · intro dni fecha
    apply runV9_daySum_le tope ops ⟨usuarios, counters, []⟩
    intro d f
    simpa [daySum, List.filter] using htope
  · intro st dni email fecha rawItems failAt hres
    simp only [submitV9] at hres
    by_cases hbad : dni = "" ∨ email = "" ∨ fecha = ""
    · rw [if_pos hbad] at hres
      exact absurd hres (by simp)
    · rw [if_neg hbad] at hres
      by_cases hempty : (rawItems.map toMoney).filter (fun m => decide (0 < m)) = []
      · rw [if_pos hempty] at hres
        exact absurd hres (by simp)
      · rw [if_neg hempty] at hres
        cases hfind : findUser st.usuarios email with
        | none =>
          rw [hfind] at hres
          exact absurd hres (by simp)
        | some u =>
          rw [hfind] at hres
          dsimp only at hres
          by_cases hcap : tope < daySum st.historial dni (normalizeFecha (some fecha)) +
              round2 ((rawItems.map toMoney).filter (fun m => decide (0 < m))).sum
          · exact hcap
          · rw [if_neg hcap] at hres
            cases failAt with
            | none =>
              exact absurd hres (by simp)
            | some i =>
              dsimp only at hres
              by_cases hi : i <
                  ((rawItems.map toMoney).filter (fun m => decide (0 < m))).length
              · rw [if_pos hi] at hres
                exact absurd hres (by simp)
              · rw [if_neg hi] at hres
                exact absurd hres (by simp)

/-- Witness for C1: with the default cap 45 and no submissions, every
worker's daily sum (0) respects the cap. -/
theorem C1_witness :
    daySum (runV9 45 ⟨[], [], []⟩ []).historial "44081950" "2024-01-10" ≤ 45 :=
  (C1_capInvariantV9 45 (by decide) [] [] []).1 "44081950" "2024-01-10"

/-! ## C4 — accumulated spend counted once per submission -/

/-- C4 counterexample: part_002 computes the daily accumulator as
`SUM(DISTINCT total)` over rows that each carry the whole submission's
total.  After two accepted 10.00 submissions on the same worker/day, the
per-submission totals sum to 20.00, but the code's accumulator collapses
the two equal totals and reports 10.00. -/
theorem C4_counterexample :
    sumDistinctTotals (submitP02
      (submitP02 ⟨[], [], []⟩ "44081950" "usuario@empresa.com" "JOEL" "GARGATE"
        "2024-01-10" [10]).2
      "44081950" "usuario@empresa.com" "JOEL" "GARGATE" "2024-01-10" [10]).2.historial
      "44081950" "2024-01-10" = 10 ∧
    headerTotalsSum (submitP02
      (submitP02 ⟨[], [], []⟩ "44081950" "usuario@empresa.com" "JOEL" "GARGATE"
        "2024-01-10" [10]).2
      "44081950" "usuario@empresa.com" "JOEL" "GARGATE" "2024-01-10" [10]).2.historial
      "44081950" "2024-01-10" = 20 ∧
    (10 : ℚ) ≠ 20 := by
  have hserie : serieFromName "JOEL" "GARGATE" = "JOGA001" := by decide
  have hlower : jsToLower "usuario@empresa.com" = "usuario@empresa.com" := by decide
  have h1 : submitP02 ⟨[], [], []⟩ "44081950" "usuario@empresa.com" "JOEL" "GARGATE"
      "2024-01-10" [10] =
    (.ok "JOGA001" 1 10,
     ⟨[], [("44081950", 1)],
      [⟨"44081950", "usuario@empresa.com", "2024-01-10", "JOGA001", 1, 10, 10⟩]⟩) := by
    simp only [submitP02, hserie, hlower]
    rw [if_neg (by decide)]
    norm_num [sumDistinctTotals, List.filter, rowMatches, List.dedup,
      getCounter, putCounter]
  have h2 : submitP02
      ⟨[], [("44081950", 1)],
       [⟨"44081950", "usuario@empresa.com", "2024-01-10", "JOGA001", 1, 10, 10⟩]⟩
      "44081950" "usuario@empresa.com" "JOEL" "GARGATE" "2024-01-10" [10] =
    (.ok "JOGA001" 2 10,
     ⟨[], [("44081950", 2)],
      [⟨"44081950", "usuario@empresa.com", "2024-01-10", "JOGA001", 1, 10, 10⟩,
       ⟨"44081950", "usuario@empresa.com", "2024-01-10", "JOGA001", 2, 10, 10⟩]⟩) := by
    simp only [submitP02, hserie, hlower]
    rw [if_neg (by decide)]
    norm_num [sumDistinctTotals, List.filter, rowMatches, List.dedup,
      getCounter, putCounter]
  rw [h1, h2]
  refine ⟨?_, ?_, by norm_num⟩
  · norm_num [sumDistinctTotals, List.filter, rowMatches, List.dedup]
  · norm_num [headerTotalsSum, List.filter, rowMatches, List.dedup]

theorem rowsOfSubs_filter (dni fecha : String) (subs : List (ℕ × ℚ × ℕ)) :
    (rowsOfSubs dni fecha subs).filter (rowMatches dni fecha) =
      rowsOfSubs dni fecha subs := by
  apply List.filter_eq_self.mpr
  intro r hr
  obtain ⟨sb, _, hrr⟩ := List.mem_flatMap.mp hr
  rw [List.eq_of_mem_replicate hrr]
  show decide (dni = dni ∧ fecha = fecha) = true
  simp

theorem rowsOfSubs_nums (dni fecha : String) (subs : List (ℕ × ℚ × ℕ)) :
    (rowsOfSubs dni fecha subs).map Row.num =
      subs.flatMap (fun s => List.replicate s.2.2 s.1) := by
  induction subs with
  | nil => rfl
  | cons sb t ih =>
    show ((List.replicate sb.2.2 _ ++ rowsOfSubs dni fecha t).map Row.num) = _
    rw [List.map_append, List.map_replicate, ih, List.flatMap_cons]

theorem mem_rowsOfSubs_nums {dni fecha : String} {subs : List (ℕ × ℚ × ℕ)} {x : ℕ}
    (hx : x ∈ (rowsOfSubs dni fecha subs).map Row.num) : x ∈ subs.map Prod.fst := by
  rw [rowsOfSubs_nums] at hx
  obtain ⟨sb, hsb, hxr⟩ := List.mem_flatMap.mp hx
  rw [List.eq_of_mem_replicate hxr]
  exact List.mem_map_of_mem Prod.fst hsb

theorem dedup_replicate_append {α : Type} [DecidableEq α] (n : α) (k : ℕ) (hk : 1 ≤ k)
    (l : List α) (hn : n ∉ l) :
    (List.replicate k n ++ l).dedup = n :: l.dedup := by
  induction k with
  | zero => exact absurd hk (by omega)
  | succ k ih =>
    cases Nat.eq_zero_or_pos k with
    | inl h0 =>
      subst h0
      show (n :: l).dedup = n :: l.dedup
      exact List.dedup_cons_of_not_mem hn
    | inr hpos =>
      rw [List.replicate_succ, List.cons_append, List.dedup_cons_of_mem
        (List.mem_append_left l (List.mem_replicate.mpr ⟨by omega, rfl⟩))]
      exact ih hpos

theorem foldr_max_replicate (k : ℕ) (hk : 1 ≤ k) (t : ℚ) (ht : 0 ≤ t) :
    (List.replicate k t).foldr max 0 = t := by
  induction k with
  | zero => exact absurd hk (by omega)
  | succ k ih =>
    cases Nat.eq_zero_or_pos k with
    | inl h0 =>
      subst h0
      show max t 0 = t
      exact max_eq_left ht
    | inr hpos =>
      rw [List.replicate_succ, List.foldr_cons, ih hpos]
      exact max_self t

/-- C4 amended: the server.js accumulator (`GROUP BY num`, `MAX(total)` per
group, summed) equals the sum of the per-submission totals whenever
submissions have distinct voucher numbers, at least one row each and
non-negative totals — every multi-item submission counts exactly once.
The part_002 variant (`SUM(DISTINCT total)`) collapses distinct same-day
submissions with equal totals and undercounts (see the counterexample);
the part_012 variant sums header rows directly, which also counts each
submission once. -/
theorem C4_accumulatorJs (dni fecha : String) (subs : List (ℕ × ℚ × ℕ))
    (hnodup : (subs.map Prod.fst).Nodup)
    (hok : ∀ s ∈ subs, 1 ≤ s.2.2 ∧ 0 ≤ s.2.1) :
    acumJs (rowsOfSubs dni fecha subs) dni fecha =
      (subs.map (fun s => s.2.1)).sum := by
  induction subs with
  | nil =>
    show ((([] : List Row).map Row.num).dedup.map _).sum = 0
    simp [List.dedup]
  | cons sb t ih =>
    have hmem : sb.1 ∉ t.map Prod.fst := (List.nodup_cons.mp hnodup).1
    have hk : 1 ≤ sb.2.2 := (hok sb (List.mem_cons_self sb t)).1
    have ht0 : 0 ≤ sb.2.1 := (hok sb (List.mem_cons_self sb t)).2
    have hnotin : sb.1 ∉ (rowsOfSubs dni fecha t).map Row.num := by
      intro hx
      exact hmem (mem_rowsOfSubs_nums hx)
    have hcons : rowsOfSubs dni fecha (sb :: t) =
        List.replicate sb.2.2
          { dni := dni, email := "", fecha := fecha, serie := "", num := sb.1,
            monto := sb.2.1, total := sb.2.1 } ++ rowsOfSubs dni fecha t := rfl
    simp only [acumJs, rowsOfSubs_filter] at ih ⊢
    rw [hcons, List.map_append, List.map_replicate]
    have hnums : ((rowsOfSubs dni fecha t).map Row.num) =
        (rowsOfSubs dni fecha t).map Row.num := rfl
    rw [dedup_replicate_append _ sb.2.2 hk _ hnotin]
    rw [List.map_cons, List.sum_cons, List.map_cons, List.sum_cons]
    congr 1
    · -- the group of the new submission's num
      rw [List.filter_append, List.filter_replicate]
      rw [if_pos (by show decide (sb.1 = sb.1) = true; simp)]
      have hrest : (rowsOfSubs dni fecha t).filter
          (fun r => decide (r.num = sb.1)) = [] := by
        apply List.filter_eq_nil_iff.mpr
        intro r hr
        have : r.num ∈ (rowsOfSubs dni fecha t).map Row.num :=
          List.mem_map_of_mem Row.num hr
        simp only [decide_eq_true_eq]
        intro he
        rw [he] at this
        exact hnotin this
      rw [hrest, List.append_nil, List.map_replicate]
      exact foldr_max_replicate sb.2.2 hk sb.2.1 ht0
    · -- the older groups are untouched by the new replicate block
      have hcongr : ∀ n ∈ ((rowsOfSubs dni fecha t).map Row.num).dedup,
          ((List.filter (fun r => decide (r.num = n))
              (List.replicate sb.2.2
                { dni := dni, email := "", fecha := fecha, serie := "", num := sb.1,
                  monto := sb.2.1, total := sb.2.1 } ++
                rowsOfSubs dni fecha t)).map Row.total).foldr max 0 =
          ((List.filter (fun r => decide (r.num = n))
              (rowsOfSubs dni fecha t)).map Row.total).foldr max 0 := by
        intro n hn
        have hne : sb.1 ≠ n := by
          intro he
          rw [he] at hnotin
          exact hnotin (List.mem_dedup.mp hn)
        rw [List.filter_append, List.filter_replicate]
        rw [if_neg (by simp only [decide_eq_true_eq]; exact hne)]
        rw [List.nil_append]
      rw [List.map_congr_left hcongr]
      exact ih (List.nodup_cons.mp hnodup).2
        (fun s hs => hok s (List.mem_cons_of_mem sb hs))

/-- Witness for C4: two submissions with distinct voucher numbers — 30.00
over two line items and 10.00 over one — accumulate to the sum of the two
per-submission totals. -/
theorem C4_witness :
    acumJs (rowsOfSubs "44081950" "2024-01-10" [(1, 30, 2), (2, 10, 1)])
      "44081950" "2024-01-10" =
      ([(1, (30 : ℚ), 2), (2, 10, 1)].map (fun s => s.2.1)).sum :=
  C4_accumulatorJs "44081950" "2024-01-10" [(1, 30, 2), (2, 10, 1)]
    (by decide) (by decide)

end Planilla
